import Mathlib

/-!
Verification of the connection core of the unity-mcp-server repository.

The definitions below are a shallow embedding of the TypeScript source:

* `UnityIPCMessage`, `corrStep`, `corrRun`, `registerHandler` embed the
  message-correlation logic of `UnityIPC.sendCommand`,
  `UnityIPC.handleIncomingMessage` and the per-request timeout callback
  (packages/core/src/unity/unity-ipc.ts).  The `messageHandlers` JS `Map`
  is embedded as an association list with unique keys; `Map.set`,
  `Map.get`, `Map.has` and `Map.delete` are `mapSet`, `mlookup`,
  `(mlookup _).isSome` and `mapDelete`.
* `hashCode`, `pipeName`, `pipePath` embed `UnityIPC.hashCode` and the
  pipe-name / pipe-path computation of the `UnityIPC` constructor and
  `UnityIPC.connect`, with JavaScript 32-bit signed-integer arithmetic
  made explicit (`toInt32`).
* The process-locator functions embed `UnityProcessDetector`.
* `IPCConnState` with its transition functions embeds the socket
  lifecycle of `UnityIPC` (connect / disconnect / socket close event /
  reconnect timer), with the Node.js event queue made explicit.
* `ManagerState` with `connectToProject`, `getStatus`,
  `isConnectionHealthy` and `checkConnectionHealth` embeds
  `UnityConnectionManager` (packages/core/src/connection/connection-manager.ts).

Machine integers are embedded as `Int`/`Nat` with explicit reduction
modulo `2 ^ 32` where JavaScript coerces to 32-bit integers.  Strings are
embedded as Lean `String`; `charCodeAt` is `Char.toNat`, which agrees
with the UTF-16 code unit for all characters in the basic multilingual
plane (project paths in this code base are ASCII).
-/

/-- Association-list lookup, embedding JavaScript `Map.get` (`Map` keys
are unique, so the first hit is the only hit). -/
def mlookup {α : Type} (k : String) : List (String × α) → Option α
  | [] => none
  | (j, v) :: rest => if j = k then some v else mlookup k rest

/-- Association-list insertion, embedding JavaScript `Map.set`:
overwrite the entry if the key is present, otherwise append. -/
def mapSet {α : Type} (k : String) (v : α) : List (String × α) → List (String × α)
  | [] => [(k, v)]
  | (j, w) :: rest => if j = k then (j, v) :: rest else (j, w) :: mapSet k v rest

/-- Association-list deletion, embedding JavaScript `Map.delete` (on a
map with unique keys, removing every entry with the key equals removing
the one entry). -/
def mapDelete {α : Type} (k : String) (m : List (String × α)) : List (String × α) :=
  m.filter (fun p => p.1 ≠ k)

/-- The key list of an association-list map. -/
def corrKeys {α : Type} (m : List (String × α)) : List String :=
  m.map Prod.fst

/-- Embedding of the `UnityIPCMessage` interface of unity-ipc.ts.  The
`parameters` and `timestamp` fields are set on outbound requests but
never read by any logic under verification, so they are omitted; `data`
is an opaque payload. -/
structure UnityIPCMessage where
  id : Option String := none
  command : Option String := none
  type : Option String := none
  data : Option String := none
  success : Option Bool := none
  error : Option String := none
deriving DecidableEq

/-- Terminal outcome of a pending request: the stored handler was called
with a response (`resolved`), or the 10-second timeout fired and the
promise was rejected with `Error("Command timeout: " ++ command)`
(`timedOut`). -/
inductive ReqOutcome where
  | resolved (msg : UnityIPCMessage)
  | timedOut (command : String)
deriving DecidableEq

/-- Correlator state of one `UnityIPC` instance: `handlers` embeds the
`messageHandlers` map (message id to the command whose resolver is
stored), `outcomes` records, in order, each terminal outcome a pending
request reached, and `events` records the inbound messages re-emitted as
Unity events. -/
structure CorrState where
  handlers : List (String × String)
  outcomes : List (String × ReqOutcome)
  events : List UnityIPCMessage
deriving DecidableEq

/-- JavaScript truthiness of an optional string (`undefined` and the
empty string are falsy). -/
def someNE (o : Option String) : Bool :=
  match o with
  | some s => s ≠ ""
  | none => false

/-- Handler registration performed by `UnityIPC.sendCommand` lines
150-151: `this.messageHandlers.set(messageId, resolve)`. -/
def registerHandler (s : CorrState) (i cmd : String) : CorrState :=
  { s with handlers := mapSet i cmd s.handlers }

/-- Asynchronous events hitting the correlator: arrival of one inbound
message (`recv none` embeds a JSON parse failure, which
`handleIncomingMessage` catches and logs), or the firing of the
10-second timeout scheduled for a request id by `sendCommand`. -/
inductive CorrEvent where
  | recv (msg : Option UnityIPCMessage)
  | timeoutFire (id : String)
deriving DecidableEq

/-- One correlator step, embedding `UnityIPC.handleIncomingMessage`
(unity-ipc.ts lines 231-268) and the timeout callback of `sendCommand`
(lines 160-165).  A message whose truthy `id` has a registered handler
resolves that handler and deletes it (first match wins); otherwise a
message with a truthy `type` is re-emitted as an event; the timeout
callback rejects only if the handler is still registered. -/
def corrStep (s : CorrState) (e : CorrEvent) : CorrState :=
  match e with
  | .recv none => s
  | .recv (some m) =>
    match m.id with
    | some i =>
      if i ≠ "" ∧ (mlookup i s.handlers).isSome then
        { s with handlers := mapDelete i s.handlers,
                 outcomes := s.outcomes ++ [(i, ReqOutcome.resolved m)] }
      else if someNE m.type then
        { s with events := s.events ++ [m] }
      else s
    | none =>
      if someNE m.type then
        { s with events := s.events ++ [m] }
      else s
  | .timeoutFire i =>
    match mlookup i s.handlers with
    | some cmd =>
      { s with handlers := mapDelete i s.handlers,
               outcomes := s.outcomes ++ [(i, ReqOutcome.timedOut cmd)] }
    | none => s

/-- Run a sequence of correlator events in arrival order. -/
def corrRun (s : CorrState) (es : List CorrEvent) : CorrState :=
  es.foldl corrStep s

theorem corrRun_cons (s : CorrState) (e : CorrEvent) (es : List CorrEvent) :
    corrRun s (e :: es) = corrRun (corrStep s e) es := rfl

theorem mlookup_append_left {α : Type} {k : String} {l : List (String × α)}
    (r : List (String × α)) {v : α} (h : mlookup k l = some v) :
    mlookup k (l ++ r) = some v := by
  induction l with
  | nil => simp [mlookup] at h
  | cons p rest ih =>
    obtain ⟨j, w⟩ := p
    by_cases hj : j = k
    · simp [mlookup, hj] at h ⊢
      exact h
    · simp [mlookup, hj] at h ⊢
      exact ih h

theorem mlookup_append_right {α : Type} {k : String} {l : List (String × α)}
    (r : List (String × α)) (h : mlookup k l = none) :
    mlookup k (l ++ r) = mlookup k r := by
  induction l with
  | nil => rfl
  | cons p rest ih =>
    obtain ⟨j, w⟩ := p
    by_cases hj : j = k
    · simp [mlookup, hj] at h
    · simp [mlookup, hj] at h ⊢
      exact ih h

theorem mlookup_mapDelete {α : Type} (k i : String) (m : List (String × α)) :
    mlookup k (mapDelete i m) = if k = i then none else mlookup k m := by
  induction m with
  | nil => simp [mapDelete, mlookup]
  | cons p rest ih =>
    obtain ⟨j, w⟩ := p
    by_cases hji : j = i
    · have hstep : mapDelete i ((j, w) :: rest) = mapDelete i rest := by
        simp [mapDelete, List.filter_cons, hji]
      rw [hstep, ih]
      by_cases hki : k = i
      · simp [hki]
      · have hjk : j ≠ k := by
          rw [hji]; intro h; exact hki h.symm
        simp [mlookup, hjk, hki]
    · have hstep : mapDelete i ((j, w) :: rest) = (j, w) :: mapDelete i rest := by
        simp [mapDelete, List.filter_cons, hji]
      rw [hstep]
      by_cases hjk : j = k
      · have hki : ¬ k = i := by
          intro h; rw [← hjk] at h; exact hji h
        simp [mlookup, hjk, hki]
      · simp [mlookup, hjk, ih]

theorem mem_corrKeys_iff {α : Type} (k : String) (m : List (String × α)) :
    k ∈ corrKeys m ↔ (mlookup k m).isSome := by
  induction m with
  | nil => simp [corrKeys, mlookup]
  | cons p rest ih =>
    obtain ⟨j, w⟩ := p
    have hck : corrKeys ((j, w) :: rest) = j :: corrKeys rest := rfl
    rw [hck, List.mem_cons, ih]
    by_cases hj : j = k
    · simp [mlookup, hj]
    · have hj2 : ¬ k = j := fun h => hj h.symm
      simp [mlookup, hj, hj2]

theorem mlookup_eq_none_iff {α : Type} (k : String) (m : List (String × α)) :
    mlookup k m = none ↔ k ∉ corrKeys m := by
  rw [mem_corrKeys_iff]
  cases h : mlookup k m <;> simp

theorem corrKeys_mapDelete {α : Type} (i : String) (m : List (String × α)) :
    corrKeys (mapDelete i m) = (corrKeys m).filter (fun k => k ≠ i) := by
  induction m with
  | nil => rfl
  | cons p rest ih =>
    obtain ⟨j, w⟩ := p
    by_cases hji : j = i
    · simp [mapDelete, corrKeys, List.filter_cons, hji] at ih ⊢
      exact ih
    · simp [mapDelete, corrKeys, List.filter_cons, hji] at ih ⊢
      exact ih

theorem corrStep_outcomes_extend (s : CorrState) (e : CorrEvent) :
    ∃ t, (corrStep s e).outcomes = s.outcomes ++ t := by
  cases e with
  | recv m? =>
    cases m? with
    | none => exact ⟨[], by simp [corrStep]⟩
    | some m =>
      simp only [corrStep]
      cases m.id with
      | none =>
        by_cases ht : someNE m.type = true
        · exact ⟨[], by simp [ht]⟩
        · exact ⟨[], by simp [ht]⟩
      | some i =>
        by_cases hc : i ≠ "" ∧ (mlookup i s.handlers).isSome = true
        · exact ⟨[(i, ReqOutcome.resolved m)], by simp [hc]⟩
        · by_cases ht : someNE m.type = true
          · exact ⟨[], by simp [hc, ht]⟩
          · exact ⟨[], by simp [hc, ht]⟩
  | timeoutFire i =>
    cases hl : mlookup i s.handlers with
    | none => exact ⟨[], by simp [corrStep, hl]⟩
    | some cmd => exact ⟨[(i, ReqOutcome.timedOut cmd)], by simp [corrStep, hl]⟩

theorem corrRun_outcome_stable {i : String} {v : ReqOutcome} :
    ∀ (es : List CorrEvent) (s : CorrState),
      mlookup i s.outcomes = some v →
      mlookup i (corrRun s es).outcomes = some v := by
  intro es
  induction es with
  | nil => intro s h; exact h
  | cons e rest ih =>
    intro s h
    obtain ⟨t, ht⟩ := corrStep_outcomes_extend s e
    rw [corrRun_cons]
    exact ih _ (by rw [ht]; exact mlookup_append_left t h)

theorem corrRun_resolves_each (resp : String → UnityIPCMessage) :
    ∀ (order : List String) (s : CorrState),
      order.Nodup →
      (∀ i ∈ order, i ∈ corrKeys s.handlers) →
      (∀ i ∈ order, (resp i).id = some i ∧ i ≠ "") →
      (∀ i ∈ order, mlookup i s.outcomes = none) →
      ∀ i ∈ order,
        mlookup i (corrRun s (order.map (fun j => CorrEvent.recv (some (resp j))))).outcomes
          = some (ReqOutcome.resolved (resp i)) := by
  intro order
  induction order with
  | nil => intro s _ _ _ _ i hi; cases hi
  | cons o rest ih =>
    intro s hnd hmem hid hout i hi
    have hido : (resp o).id = some o ∧ o ≠ "" := hid o (List.mem_cons_self o rest)
    have hso : (mlookup o s.handlers).isSome :=
      (mem_corrKeys_iff o s.handlers).mp (hmem o (List.mem_cons_self o rest))
    have hstep : corrStep s (CorrEvent.recv (some (resp o))) =
        { s with handlers := mapDelete o s.handlers,
                 outcomes := s.outcomes ++ [(o, ReqOutcome.resolved (resp o))] } := by
      simp only [corrStep]
      rw [hido.1]
      simp [hido.2, hso]
    have hnotin : o ∉ rest := (List.nodup_cons.mp hnd).1
    have hrun : corrRun s ((o :: rest).map (fun j => CorrEvent.recv (some (resp j)))) =
        corrRun (corrStep s (CorrEvent.recv (some (resp o))))
          (rest.map (fun j => CorrEvent.recv (some (resp j)))) := rfl
    rw [hrun, hstep]
    rcases List.mem_cons.mp hi with heq | hrest
    · subst heq
      apply corrRun_outcome_stable
      have h1 : mlookup i s.outcomes = none := hout i (List.mem_cons_self i rest)
      show mlookup i (s.outcomes ++ [(i, ReqOutcome.resolved (resp i))]) =
        some (ReqOutcome.resolved (resp i))
      rw [mlookup_append_right _ h1]
      simp [mlookup]
    · apply ih _ (List.nodup_cons.mp hnd).2
      · intro j hj
        have hjo : j ≠ o := fun h => hnotin (h ▸ hj)
        have hjk : j ∈ corrKeys s.handlers := hmem j (List.mem_cons_of_mem o hj)
        show j ∈ corrKeys (mapDelete o s.handlers)
        rw [corrKeys_mapDelete]
        exact List.mem_filter.mpr ⟨hjk, by simp [hjo]⟩
      · intro j hj
        exact hid j (List.mem_cons_of_mem o hj)
      · intro j hj
        have hjo : j ≠ o := fun h => hnotin (h ▸ hj)
        have hoj : ¬ o = j := fun h => hjo h.symm
        show mlookup j (s.outcomes ++ [(o, ReqOutcome.resolved (resp o))]) = none
        rw [mlookup_append_right _ (hout j (List.mem_cons_of_mem o hj))]
        simp [mlookup, hoj]
      · exact hrest

/-- C1: for every set of concurrent `sendCommand` calls on one `UnityIPC`
instance with pairwise-distinct request identifiers (`pending` is the
`messageHandlers` map after all the sends), and for every arrival order
of the matching responses (any `order` containing exactly the pending
identifiers), each pending request resolves with exactly the inbound
response message bearing its own identifier. -/
theorem C1_concurrent_requests_match_by_id
    (pending : List (String × String)) (resp : String → UnityIPCMessage)
    (order : List String)
    (_hkeys : (corrKeys pending).Nodup)
    (hord : order.Nodup)
    (hsub1 : ∀ i ∈ order, i ∈ corrKeys pending)
    (hsub2 : ∀ i ∈ corrKeys pending, i ∈ order)
    (hid : ∀ i ∈ order, (resp i).id = some i ∧ i ≠ "") :
    ∀ i ∈ corrKeys pending,
      mlookup i (corrRun ⟨pending, [], []⟩
          (order.map (fun j => CorrEvent.recv (some (resp j))))).outcomes
        = some (ReqOutcome.resolved (resp i)) := by
  intro i hi
  exact corrRun_resolves_each resp order ⟨pending, [], []⟩ hord hsub1 hid
    (fun _ _ => rfl) i (hsub2 i hi)

/-- Concrete response family used by the C1 witness: the response to id
`j` carries id `j`. -/
def respW : String → UnityIPCMessage := fun j => { id := some j, success := some true }

/-- Witness for C1: two pending requests "a" (ping) and "b" (get_state);
the responses arrive in the order "b" then "a" — the reverse of the send
order — and each request still resolves with its own response. -/
theorem C1_witness :
    mlookup "a" (corrRun ⟨[("a", "ping"), ("b", "get_state")], [], []⟩
        (["b", "a"].map (fun j => CorrEvent.recv (some (respW j))))).outcomes
      = some (ReqOutcome.resolved (respW "a")) ∧
    mlookup "b" (corrRun ⟨[("a", "ping"), ("b", "get_state")], [], []⟩
        (["b", "a"].map (fun j => CorrEvent.recv (some (respW j))))).outcomes
      = some (ReqOutcome.resolved (respW "b")) :=
  ⟨C1_concurrent_requests_match_by_id [("a", "ping"), ("b", "get_state")] respW
      ["b", "a"] (by decide) (by decide) (by decide) (by decide) (by decide)
      "a" (by decide),
    C1_concurrent_requests_match_by_id [("a", "ping"), ("b", "get_state")] respW
      ["b", "a"] (by decide) (by decide) (by decide) (by decide) (by decide)
      "b" (by decide)⟩

/-- Correlator well-formedness: pending request identifiers are pairwise
distinct (the spec invariant on `PendingRequest`), each identifier has at
most one recorded terminal outcome, and no identifier is simultaneously
pending and terminated. -/
def corrWF (s : CorrState) : Prop :=
  (corrKeys s.handlers).Nodup ∧ (corrKeys s.outcomes).Nodup ∧
  ∀ i ∈ corrKeys s.handlers, mlookup i s.outcomes = none

theorem nodup_snoc {α : Type} (l : List α) (a : α) :
    (l ++ [a]).Nodup ↔ l.Nodup ∧ a ∉ l := by
  simp [List.nodup_append]

theorem resolveShape_WF (s : CorrState) (i : String) (o : ReqOutcome)
    (h : corrWF s) (hs : (mlookup i s.handlers).isSome) :
    corrWF { s with handlers := mapDelete i s.handlers,
                    outcomes := s.outcomes ++ [(i, o)] } := by
  obtain ⟨h1, h2, h3⟩ := h
  have hmem : i ∈ corrKeys s.handlers := (mem_corrKeys_iff i s.handlers).mpr hs
  have hnone : mlookup i s.outcomes = none := h3 i hmem
  have hni : i ∉ corrKeys s.outcomes := (mlookup_eq_none_iff i s.outcomes).mp hnone
  refine ⟨?_, ?_, ?_⟩
  · rw [corrKeys_mapDelete]
    exact h1.filter _
  · have hkeys : corrKeys (s.outcomes ++ [(i, o)]) = corrKeys s.outcomes ++ [i] := by
      simp [corrKeys]
    rw [hkeys, nodup_snoc]
    exact ⟨h2, hni⟩
  · intro j hj
    rw [corrKeys_mapDelete] at hj
    obtain ⟨hjk, hne⟩ := List.mem_filter.mp hj
    have hji : j ≠ i := by simpa using hne
    have hij : ¬ i = j := fun hh => hji hh.symm
    rw [mlookup_append_right _ (h3 j hjk)]
    simp [mlookup, hij]

theorem corrStep_WF (s : CorrState) (e : CorrEvent) (h : corrWF s) :
    corrWF (corrStep s e) := by
  cases e with
  | recv m? =>
    cases m? with
    | none => exact h
    | some m =>
      simp only [corrStep]
      cases m.id with
      | none =>
        by_cases ht : someNE m.type = true
        · simp only [if_pos ht]
          exact h
        · simp only [if_neg ht]
          exact h
      | some i =>
        by_cases hc : i ≠ "" ∧ (mlookup i s.handlers).isSome = true
        · simp only [if_pos hc]
          exact resolveShape_WF s i (ReqOutcome.resolved m) h hc.2
        · simp only [if_neg hc]
          by_cases ht : someNE m.type = true
          · simp only [if_pos ht]
            exact h
          · simp only [if_neg ht]
            exact h
  | timeoutFire i =>
    cases hl : mlookup i s.handlers with
    | none =>
      simp only [corrStep, hl]
      exact h
    | some cmd =>
      simp only [corrStep, hl]
      exact resolveShape_WF s i (ReqOutcome.timedOut cmd) h (by rw [hl]; rfl)

theorem corrRun_WF : ∀ (es : List CorrEvent) (s : CorrState),
    corrWF s → corrWF (corrRun s es) := by
  intro es
  induction es with
  | nil => intro s h; exact h
  | cons e rest ih =>
    intro s h
    rw [corrRun_cons]
    exact ih _ (corrStep_WF s e h)

/-- C9: every pending request on a correlator reaches at most one
terminal state — the recorded outcomes carry pairwise-distinct request
identifiers after any sequence of inbound messages, parse failures and
timer firings — and once identifier `i` has been resolved by a first
matching inbound message (or timed out), no later inbound message or
timer firing with the same identifier changes that outcome: the first
recorded outcome persists unchanged (the duplicate is ignored). -/
theorem C9_first_match_wins (s : CorrState) (es : List CorrEvent)
    (i : String) (v : ReqOutcome)
    (h : corrWF s) (hv : mlookup i s.outcomes = some v) :
    (corrKeys (corrRun s es).outcomes).Nodup ∧
    mlookup i (corrRun s es).outcomes = some v :=
  ⟨(corrRun_WF es s h).2.1, corrRun_outcome_stable es s hv⟩

/-- Witness for C9: request "a" has already been resolved by a first
matching response; a duplicate response with the same identifier, the
firing of the request's own timer and an unrelated response then arrive,
and the recorded outcome for "a" is still the first response while every
identifier keeps a single terminal outcome. -/
theorem C9_witness :
    (corrKeys (corrRun
        ⟨[("b", "get_state")],
          [("a", ReqOutcome.resolved { id := some "a", data := some "one" })], []⟩
        [CorrEvent.recv (some { id := some "a", data := some "two" }),
          CorrEvent.timeoutFire "a",
          CorrEvent.recv (some { id := some "b", success := some true })]).outcomes).Nodup ∧
    mlookup "a" (corrRun
        ⟨[("b", "get_state")],
          [("a", ReqOutcome.resolved { id := some "a", data := some "one" })], []⟩
        [CorrEvent.recv (some { id := some "a", data := some "two" }),
          CorrEvent.timeoutFire "a",
          CorrEvent.recv (some { id := some "b", success := some true })]).outcomes
      = some (ReqOutcome.resolved { id := some "a", data := some "one" }) :=
  C9_first_match_wins
    ⟨[("b", "get_state")],
      [("a", ReqOutcome.resolved { id := some "a", data := some "one" })], []⟩
    [CorrEvent.recv (some { id := some "a", data := some "two" }),
      CorrEvent.timeoutFire "a",
      CorrEvent.recv (some { id := some "b", success := some true })]
    "a" (ReqOutcome.resolved { id := some "a", data := some "one" })
    ⟨by decide, by decide, by decide⟩ (by decide)

/-- JavaScript `ToInt32`: reduce an integer to the 32-bit signed range,
as performed by the bitwise operators `<<` and `&` in
`UnityIPC.hashCode`. -/
def toInt32 (n : Int) : Int :=
  if n % 4294967296 ≥ 2147483648 then n % 4294967296 - 4294967296 else n % 4294967296

/-- One iteration of `UnityIPC.hashCode` (unity-ipc.ts lines 293-301):
`hash = ((hash << 5) - hash) + char; hash = hash & hash`.  The shift
coerces to 32-bit first (`toInt32 (hash * 32)`); the subtraction and the
character addition are exact in IEEE doubles at these magnitudes; the
final `& hash` coerces the result back to a signed 32-bit integer. -/
def hashStep (hash : Int) (c : Nat) : Int :=
  toInt32 (toInt32 (hash * 32) - hash + (c : Int))

/-- Embedding of `UnityIPC.hashCode(str)`: fold `hashStep` over the
UTF-16 code units of the string, starting from 0. -/
def hashCode (s : String) : Int :=
  s.data.foldl (fun h c => hashStep h c.toNat) 0

/-- Pipe-name derivation of the `UnityIPC` constructor (unity-ipc.ts
lines 52-54): `"unity-mcp-" + String(Math.abs(hashCode(projectPath)))`. -/
def pipeName (projectPath : String) : String :=
  "unity-mcp-" ++ toString (hashCode projectPath).natAbs

/-- Platform rendezvous path built in `UnityIPC.connect` (unity-ipc.ts
lines 68-70): a named-pipe path on win32, `/tmp/<name>` elsewhere. -/
def pipePath (isWin32 : Bool) (name : String) : String :=
  if isWin32 then "\\\\.\\pipe\\" ++ name else "/tmp/" ++ name

theorem toInt32_range (n : Int) :
    -2147483648 ≤ toInt32 n ∧ toInt32 n < 2147483648 := by
  unfold toInt32
  have h1 : 0 ≤ n % 4294967296 := Int.emod_nonneg n (by norm_num)
  have h2 : n % 4294967296 < 4294967296 := Int.emod_lt_of_pos n (by norm_num)
  constructor
  · split <;> omega
  · split <;> omega

theorem hashCode_range (s : String) :
    -2147483648 ≤ hashCode s ∧ hashCode s < 2147483648 := by
  unfold hashCode
  have hfold : ∀ (cs : List Char) (h : Int), -2147483648 ≤ h → h < 2147483648 →
      -2147483648 ≤ cs.foldl (fun a c => hashStep a c.toNat) h ∧
      cs.foldl (fun a c => hashStep a c.toNat) h < 2147483648 := by
    intro cs
    induction cs with
    | nil => intro h h1 h2; exact ⟨h1, h2⟩
    | cons c rest ih =>
      intro h h1 h2
      have hs := toInt32_range (toInt32 (h * 32) - h + (c.toNat : Int))
      exact ih (hashStep h c.toNat) hs.1 hs.2
  exact hfold s.data 0 (by norm_num) (by norm_num)

set_option maxRecDepth 4096

/-- C7: the rendezvous endpoint name is a deterministic pure function of
the target identifier alone — `"unity-mcp-" ++` the decimal string of
the absolute value of the 32-bit `hashCode` of the identifier — so two
computations for the same identifier give the identical name and the
identical platform path; the platform path is `/tmp/<name>` off Windows
and `\\.\pipe\<name>` on Windows; the hash stays in the signed 32-bit
range; and distinct identifiers can give distinct names. -/
theorem C7_endpoint_name_derivation (target : String) (w : Bool) :
    pipeName target = "unity-mcp-" ++ toString (hashCode target).natAbs ∧
    pipePath w (pipeName target) = pipePath w (pipeName target) ∧
    pipePath false (pipeName target) = "/tmp/" ++ pipeName target ∧
    pipePath true (pipeName target) = "\\\\.\\pipe\\" ++ pipeName target ∧
    -2147483648 ≤ hashCode target ∧ hashCode target < 2147483648 ∧
    pipeName "/proj/A" ≠ pipeName "/proj/B" :=
  ⟨rfl, rfl, rfl, rfl, (hashCode_range target).1, (hashCode_range target).2, by decide⟩

/-- Witness for C7 at a concrete target identifier. -/
theorem C7_witness :
    pipeName "/proj/A" = "unity-mcp-" ++ toString (hashCode "/proj/A").natAbs ∧
    pipePath false (pipeName "/proj/A") = pipePath false (pipeName "/proj/A") ∧
    pipePath false (pipeName "/proj/A") = "/tmp/" ++ pipeName "/proj/A" ∧
    pipePath true (pipeName "/proj/A") = "\\\\.\\pipe\\" ++ pipeName "/proj/A" ∧
    -2147483648 ≤ hashCode "/proj/A" ∧ hashCode "/proj/A" < 2147483648 ∧
    pipeName "/proj/A" ≠ pipeName "/proj/B" :=
  C7_endpoint_name_derivation "/proj/A" false

/-- JavaScript `\s` whitespace test restricted to the ASCII range (the
space classes beyond ASCII never occur in `ps`/`wmic` output). -/
def isJsWs (c : Char) : Bool :=
  c = ' ' ∨ c = '\t' ∨ c = '\n' ∨ c = '\r' ∨ c = '\x0b' ∨ c = '\x0c'

/-- Helper for `jsSplitWs`: `some acc` means a token (reversed in `acc`)
is being read, `none` means a whitespace run is being skipped. -/
def jsSplitWsAux : Option (List Char) → List Char → List String
  | some acc, [] => [String.mk acc.reverse]
  | none, [] => [""]
  | some acc, c :: r =>
    if isJsWs c then String.mk acc.reverse :: jsSplitWsAux none r
    else jsSplitWsAux (some (c :: acc)) r
  | none, c :: r =>
    if isJsWs c then jsSplitWsAux none r
    else jsSplitWsAux (some [c]) r

/-- JavaScript `line.split(/\s+/)`: split on maximal whitespace runs,
producing an empty leading (trailing) element when the string starts
(ends) with whitespace. -/
def jsSplitWs (s : String) : List String :=
  jsSplitWsAux (some []) s.data

/-- Helper for single-character splits: prepend a character to the
first piece. -/
def consHead (c : Char) : List String → List String
  | [] => [String.mk [c]]
  | s :: rest => String.mk (c :: s.data) :: rest

/-- JavaScript `s.split(sep)` for a one-character separator (the code
splits only on `'\n'` and `','`): adjacent separators and separators at
the ends produce empty pieces. -/
def jsSplitChar (sep : Char) : List Char → List String
  | [] => [""]
  | c :: r => if c = sep then "" :: jsSplitChar sep r else consHead c (jsSplitChar sep r)

/-- String version of `jsSplitChar`. -/
def jsSplitOnChar (sep : Char) (s : String) : List String :=
  jsSplitChar sep s.data

/-- JavaScript `s.trim()`: strip `\s` from both ends. -/
def jsTrim (s : String) : String :=
  String.mk (((s.data.dropWhile isJsWs).reverse.dropWhile isJsWs).reverse)

/-- JavaScript `s.startsWith(pre)`. -/
def jsStartsWith (s pre : String) : Bool :=
  pre.data.isPrefixOf s.data

/-- Decimal digit value of a character, `none` for a non-digit. -/
def digitVal (c : Char) : Option Nat :=
  if '0' ≤ c ∧ c ≤ '9' then some (c.toNat - '0'.toNat) else none

/-- Hexadecimal digit value of a character, `none` for a non-digit. -/
def hexVal (c : Char) : Option Nat :=
  if '0' ≤ c ∧ c ≤ '9' then some (c.toNat - '0'.toNat)
  else if 'a' ≤ c ∧ c ≤ 'f' then some (c.toNat - 'a'.toNat + 10)
  else if 'A' ≤ c ∧ c ≤ 'F' then some (c.toNat - 'A'.toNat + 10)
  else none

/-- Longest prefix of digit values under a digit classifier. -/
def takeDigits (f : Char → Option Nat) : List Char → List Nat
  | [] => []
  | c :: r =>
    match f c with
    | some d => d :: takeDigits f r
    | none => []

/-- Numeric value of a digit list in a base. -/
def digitsToNat (base : Nat) (ds : List Nat) : Nat :=
  ds.foldl (fun a d => a * base + d) 0

/-- JavaScript `parseInt(s)` with unspecified radix: skip leading
whitespace, optional sign, auto-detect a `0x`/`0X` prefix, read the
longest digit prefix; `none` embeds `NaN`. -/
def jsParseInt (s : String) : Option Int :=
  let cs := s.data.dropWhile (fun c => isJsWs c)
  let signAndRest : Int × List Char :=
    match cs with
    | '-' :: r => (-1, r)
    | '+' :: r => (1, r)
    | r => (1, r)
  match signAndRest.2 with
  | '0' :: 'x' :: r =>
    let ds := takeDigits hexVal r
    if ds.isEmpty then none else some (signAndRest.1 * (digitsToNat 16 ds : Int))
  | '0' :: 'X' :: r =>
    let ds := takeDigits hexVal r
    if ds.isEmpty then none else some (signAndRest.1 * (digitsToNat 16 ds : Int))
  | r =>
    let ds := takeDigits digitVal r
    if ds.isEmpty then none else some (signAndRest.1 * (digitsToNat 10 ds : Int))

/-- JavaScript `s.includes(sub)` on character lists. -/
def hasInfixCh (sub : List Char) : List Char → Bool
  | [] => sub.isEmpty
  | c :: rest => sub.isPrefixOf (c :: rest) || hasInfixCh sub rest

/-- The literal part of the `-projectPath\s+"?([^"]+)"?` regular
expression used by `UnityProcessDetector.extractProjectPath`. -/
def ppLit : List Char := "-projectPath".data

/-- Backtracking suffix match for `\s+"?([^"]+)"?` after the literal:
try consuming `k` whitespace characters (greedy, largest first), then an
optional quote, then a non-empty greedy run of non-quote characters. -/
def tryCapture (rest : List Char) : Nat → Option (List Char)
  | 0 => none
  | Nat.succ k =>
    let r2 := rest.drop (k + 1)
    let quoted : Option (List Char) :=
      match r2 with
      | '"' :: r3 =>
        let cont := r3.takeWhile (fun c => c ≠ '"')
        if cont.isEmpty then none else some cont
      | _ => none
    match quoted with
    | some cap => some cap
    | none =>
      let cont := r2.takeWhile (fun c => c ≠ '"')
      if cont.isEmpty then tryCapture rest k else some cont

/-- Suffix match anchored right after the literal: `\s+` must consume at
least one character, at most the maximal whitespace run. -/
def tryCaptureAt (rest : List Char) : Option (List Char) :=
  tryCapture rest (rest.takeWhile isJsWs).length

/-- Left-to-right scan for the first position where the whole regular
expression matches. -/
def scanPP : List Char → Option (List Char)
  | [] => none
  | c :: rest =>
    match (if ppLit.isPrefixOf (c :: rest) then tryCaptureAt ((c :: rest).drop ppLit.length)
           else none) with
    | some cap => some cap
    | none => scanPP rest

/-- Embedding of `UnityProcessDetector.extractProjectPath` (unity-ipc.ts
lines 431-434): first match of `-projectPath\s+"?([^"]+)"?`, group 1,
trimmed; `none` embeds `null`. -/
def extractProjectPath (commandLine : String) : Option String :=
  match scanPP commandLine.data with
  | some cap => some (jsTrim (String.mk cap))
  | none => none

/-- Embedding of the `UnityProcess` interface of unity-ipc.ts. -/
structure UnityProcess where
  pid : Int
  projectPath : String
  commandLine : String
deriving DecidableEq

/-- Join with single spaces: `parts.slice(10).join(' ')`. -/
def spaceJoin (xs : List String) : String :=
  String.intercalate " " xs

/-- Embedding of one iteration of the loop in
`UnityProcessDetector.parseUnixProcessOutput` (unity-ipc.ts lines
406-422): split the row on whitespace, require at least 11 columns,
parse column 1 as the pid, join columns 10.. as the command line, keep
the row only when the pid is truthy, the command line mentions
`-projectPath` and the extracted project path is truthy
(`if (projectPath)` at line 414: `null` and the empty string are both
skipped); `none` means the row is silently skipped. -/
def parseUnixLine (line : String) : Option UnityProcess :=
  let parts := jsSplitWs line
  if parts.length ≥ 11 then
    match jsParseInt (parts.getD 1 "") with
    | some pid =>
      if pid ≠ 0 ∧ hasInfixCh ppLit (spaceJoin (parts.drop 10)).data then
        match extractProjectPath (spaceJoin (parts.drop 10)) with
        | some p => if p ≠ "" then some ⟨pid, p, spaceJoin (parts.drop 10)⟩ else none
        | none => none
      else none
    | none => none
  else none

/-- The accumulating loop shared by both parsers: append each
successfully parsed row, skip the rest. -/
def pushParsed {α : Type} (parse : α → Option UnityProcess) (ls : List α) :
    List UnityProcess :=
  ls.foldl (fun acc l =>
    match parse l with
    | some p => acc ++ [p]
    | none => acc) []

/-- Line filtering and row loop of `parseUnixProcessOutput`:
`output.split('\n').filter(line => line.trim())` then the per-row
parse. -/
def parseUnixLines (lines : List String) : List UnityProcess :=
  pushParsed parseUnixLine (lines.filter (fun l => jsTrim l ≠ ""))

/-- Embedding of `UnityProcessDetector.parseUnixProcessOutput`. -/
def parseUnixProcessOutput (output : String) : List UnityProcess :=
  parseUnixLines (jsSplitOnChar '\n' output)

/-- Embedding of one iteration of the loop in
`UnityProcessDetector.parseWindowsProcessOutput` (unity-ipc.ts lines
377-394): split the csv row on commas, require at least 3 fields, trim
field 1 as the command line, parse field 2 as the pid, keep the row only
when the command line is truthy, the pid is truthy, `-projectPath`
occurs and the extracted project path is truthy (`if (projectPath)` at
line 385: `null` and the empty string are both skipped). -/
def parseWindowsLine (line : String) : Option UnityProcess :=
  let parts := jsSplitOnChar ',' line
  if parts.length ≥ 3 then
    let commandLine := jsTrim (parts.getD 1 "")
    match jsParseInt (jsTrim (parts.getD 2 "")) with
    | some pid =>
      if commandLine ≠ "" ∧ pid ≠ 0 ∧ hasInfixCh ppLit commandLine.data then
        match extractProjectPath commandLine with
        | some p => if p ≠ "" then some ⟨pid, p, commandLine⟩ else none
        | none => none
      else none
    | none => none
  else none

/-- Line filtering and row loop of `parseWindowsProcessOutput`:
`output.split('\n').filter(line => line.trim() && !line.startsWith('Node'))`
then the per-row parse. -/
def parseWindowsLines (lines : List String) : List UnityProcess :=
  pushParsed parseWindowsLine
    (lines.filter (fun l => jsTrim l ≠ "" ∧ ¬ jsStartsWith l "Node"))

/-- Embedding of `UnityProcessDetector.parseWindowsProcessOutput`. -/
def parseWindowsProcessOutput (output : String) : List UnityProcess :=
  parseWindowsLines (jsSplitOnChar '\n' output)

/-- Embedding of `UnityProcessDetector.findUnixUnityProcesses`: the
`execSync` call either yields the `ps` output or throws; the catch block
returns the empty list. -/
def findUnixUnityProcesses : Except String String → List UnityProcess
  | .error _ => []
  | .ok out => parseUnixProcessOutput out

/-- Embedding of `UnityProcessDetector.findWindowsUnityProcesses`. -/
def findWindowsUnityProcesses : Except String String → List UnityProcess
  | .error _ => []
  | .ok out => parseWindowsProcessOutput out

/-- Embedding of `UnityProcessDetector.findUnityProcesses` (unity-ipc.ts
lines 318-330): dispatch on the platform; the outer catch also returns
the empty list, so the function never propagates an exception. -/
def findUnityProcesses (isWin32 : Bool) (enumResult : Except String String) :
    List UnityProcess :=
  if isWin32 then findWindowsUnityProcesses enumResult
  else findUnixUnityProcesses enumResult

theorem pushParsed_eq_filterMap {α : Type} (parse : α → Option UnityProcess) :
    ∀ (ls : List α) (acc : List UnityProcess),
      ls.foldl (fun acc l =>
        match parse l with
        | some p => acc ++ [p]
        | none => acc) acc = acc ++ ls.filterMap parse := by
  intro ls
  induction ls with
  | nil => intro acc; simp
  | cons l rest ih =>
    intro acc
    cases hf : parse l with
    | none => simp [List.foldl_cons, hf, List.filterMap_cons, ih]
    | some p => simp [List.foldl_cons, hf, List.filterMap_cons, ih]

theorem parseUnixLines_eq_filterMap (lines : List String) :
    parseUnixLines lines =
      (lines.filter (fun l => jsTrim l ≠ "")).filterMap parseUnixLine := by
  unfold parseUnixLines pushParsed
  rw [pushParsed_eq_filterMap]
  simp

/-- C8: the Unix process-listing parser silently skips every malformed
or unparsable row — deleting a row on which `parseUnixLine` fails never
changes the result — and returns exactly the successfully parsed rows in
order; an empty enumeration output yields the empty list; and when the
OS enumeration mechanism itself cannot be invoked (`execSync` throws,
embedded as `Except.error`), `findUnityProcesses` returns the empty
list on both platforms instead of propagating a failure, so it never
fails on malformed rows or on zero peers. -/
theorem C8_locator_skips_malformed (l1 l2 : List String) (bad : String) (e : String)
    (hbad : parseUnixLine bad = none) :
    parseUnixLines (l1 ++ bad :: l2) = parseUnixLines (l1 ++ l2) ∧
    (∀ lines : List String, parseUnixLines lines =
      (lines.filter (fun l => jsTrim l ≠ "")).filterMap parseUnixLine) ∧
    findUnityProcesses false (Except.error e) = [] ∧
    findUnityProcesses true (Except.error e) = [] ∧
    parseUnixProcessOutput "" = [] := by
  refine ⟨?_, parseUnixLines_eq_filterMap, rfl, rfl, by decide⟩
  rw [parseUnixLines_eq_filterMap, parseUnixLines_eq_filterMap]
  by_cases hb : jsTrim bad = ""
  · simp [List.filter_append, List.filter_cons, hb]
  · simp [List.filter_append, List.filter_cons, hb, List.filterMap_append,
      List.filterMap_cons, hbad]

/-- Witness for C8: a two-row listing around a malformed row parses to
the same result as without it, and an unavailable enumeration mechanism
yields the empty list. -/
theorem C8_witness :
    parseUnixLines (["u 7 0 0 1 2 ? S 1:00 0:01 unity -projectPath /p/G"] ++
        "not a process row" :: ["x"]) =
      parseUnixLines (["u 7 0 0 1 2 ? S 1:00 0:01 unity -projectPath /p/G"] ++ ["x"]) ∧
    (∀ lines : List String, parseUnixLines lines =
      (lines.filter (fun l => jsTrim l ≠ "")).filterMap parseUnixLine) ∧
    findUnityProcesses false (Except.error "spawn failed") = [] ∧
    findUnityProcesses true (Except.error "spawn failed") = [] ∧
    parseUnixProcessOutput "" = [] :=
  C8_locator_skips_malformed ["u 7 0 0 1 2 ? S 1:00 0:01 unity -projectPath /p/G"]
    ["x"] "not a process row" "spawn failed" (by decide)

/-- Socket lifecycle state of one `UnityIPC` instance: `hasSocket`
embeds `this.socket !== null`, `isConnected` embeds `this.isConnected`,
`reconnectTimer` embeds `this.reconnectTimer !== undefined`,
`queuedClose` counts close events queued on the Node event loop for
sockets this instance destroyed (destroying a socket emits its `close`
event asynchronously, after `disconnect()` has returned), and
`connectCalls` counts invocations of `connect()` — each one creates a
fresh socket connection attempt. -/
structure IPCConnState where
  hasSocket : Bool
  isConnected : Bool
  reconnectTimer : Bool
  queuedClose : Nat
  connectCalls : Nat
deriving DecidableEq

/-- Constructor state of a fresh `UnityIPC` instance. -/
def ipcInit : IPCConnState := ⟨false, false, false, 0, 0⟩

/-- Embedding of a call to `UnityIPC.connect` (unity-ipc.ts lines
62-112): `net.createConnection` produces a socket; success or failure is
delivered later by the socket events. -/
def ipcConnectCall (s : IPCConnState) : IPCConnState :=
  { s with hasSocket := true, connectCalls := s.connectCalls + 1 }

/-- Embedding of the socket `connect` event (lines 74-79): the attempt
succeeded, `isConnected := true`. -/
def fireConnectOk (s : IPCConnState) : IPCConnState :=
  if s.hasSocket then { s with isConnected := true } else s

/-- Body of the socket `close` handler registered in `connect` (lines
91-96): `isConnected = false`, emit `disconnected`, then
`scheduleReconnect` (lines 273-281), which installs a reconnect timer
unless one is already pending — so the timer is pending afterwards in
either case.  The handler runs unconditionally on every socket close,
including a close caused by `disconnect()` destroying the socket. -/
def closeHandlerBody (s : IPCConnState) : IPCConnState :=
  { s with isConnected := false, reconnectTimer := true }

/-- Delivery of a queued `close` event of a destroyed socket. -/
def fireSocketClose (s : IPCConnState) : IPCConnState :=
  if s.queuedClose > 0 then closeHandlerBody { s with queuedClose := s.queuedClose - 1 }
  else s

/-- Embedding of the reconnect timer firing (lines 276-280): clear
`reconnectTimer`, then call `connect()` again. -/
def fireReconnectTimer (s : IPCConnState) : IPCConnState :=
  if s.reconnectTimer then ipcConnectCall { s with reconnectTimer := false } else s

/-- Embedding of `UnityIPC.disconnect` (unity-ipc.ts lines 117-130):
clear any pending reconnect timer, destroy the socket if present (which
queues its `close` event for a later event-loop turn) and null it out,
and clear `isConnected`. -/
def ipcDisconnect (s : IPCConnState) : IPCConnState :=
  let s1 := { s with reconnectTimer := false }
  let s2 := if s1.hasSocket then
      { s1 with hasSocket := false, queuedClose := s1.queuedClose + 1 }
    else s1
  { s2 with isConnected := false }

/-- State of a `UnityIPC` instance right after a successful initial
`connect()`: one socket, connected, no timer, no queued event. -/
def ipcConnected : IPCConnState := ⟨true, true, false, 0, 1⟩

/-- C4 (code bug): the parts of the claim the code satisfies — calling
`disconnect()` cancels any pending reconnect timer and a second
`disconnect()` has no additional effect — hold, but the headline is
false on the code: destroying the socket inside `disconnect()` queues
the socket's `close` event, whose handler unconditionally calls
`scheduleReconnect`, so after `disconnect()` returns a reconnect timer
becomes pending and, when it fires, `connect()` is invoked again
(`connectCalls` rises from 1 to 2 and a fresh socket exists) — a
reconnect attempt does occur after `close()`. -/
theorem C4_reconnect_fires_after_disconnect :
    (ipcDisconnect ipcConnected).reconnectTimer = false ∧
    ipcDisconnect (ipcDisconnect ipcConnected) = ipcDisconnect ipcConnected ∧
    (fireSocketClose (ipcDisconnect ipcConnected)).reconnectTimer = true ∧
    (fireReconnectTimer (fireSocketClose (ipcDisconnect ipcConnected))).connectCalls = 2 ∧
    (fireReconnectTimer (fireSocketClose (ipcDisconnect ipcConnected))).hasSocket = true := by
  decide

/-- The orphaned first `UnityIPC` instance of a target after
`disconnectFromProject` called its `disconnect()`, its queued socket
`close` event fired, its reconnect timer fired, and the resulting
`connect()` attempt succeeded against the still-listening peer pipe. -/
def orphanedAfterReconnect : IPCConnState :=
  fireConnectOk (fireReconnectTimer (fireSocketClose (ipcDisconnect ipcConnected)))

/-- The second `UnityIPC` instance for the same target created by the
immediately following `connectToProject`, with its `connect()`
succeeding. -/
def freshConnected : IPCConnState :=
  fireConnectOk (ipcConnectCall ipcInit)

/-- C3 (code bug): `disconnectFromProject(target)` calls
`unityIPC.disconnect()` and removes the instance from the registry map,
but nothing stops the orphaned instance's close-handler/reconnect-timer
chain; an immediately following `connectToProject(target)` creates a
second instance.  Five seconds later both instances hold connected
sockets to the same target's pipe — two live Transports for one Target,
violating the invariant. -/
theorem C3_two_live_transports_one_target :
    orphanedAfterReconnect.isConnected = true ∧
    orphanedAfterReconnect.hasSocket = true ∧
    freshConnected.isConnected = true ∧
    freshConnected.hasSocket = true := by
  decide

/-- Full state of one `UnityIPC` instance: socket lifecycle plus
correlator. -/
structure UnityIPCState where
  conn : IPCConnState
  corr : CorrState
deriving DecidableEq

/-- The socket `close` handler (unity-ipc.ts lines 91-96) run over the
full instance state: it sets `isConnected = false`, emits
`disconnected` and schedules a reconnect — it never mentions
`messageHandlers`, so the correlator component is untouched. -/
def ipcOnClose (s : UnityIPCState) : UnityIPCState :=
  { s with conn := closeHandlerBody s.conn }

/-- A connected instance with two requests pending. -/
def pendingTwoState : UnityIPCState :=
  ⟨ipcConnected, ⟨[("a", "ping"), ("b", "get_state")], [], []⟩⟩

/-- Counterexample to C2 as stated: the Transport closes while K = 2
requests are pending, the close handler runs to completion (the whole
same-turn reaction to the close notification), and both requests are
still pending with no recorded outcome — no request has failed with any
error, let alone `PeerDisconnectedError` (which does not exist in the
code base). -/
theorem C2_counterexample_pending_survive_close :
    (ipcOnClose pendingTwoState).corr.handlers = [("a", "ping"), ("b", "get_state")] ∧
    (ipcOnClose pendingTwoState).corr.outcomes = [] := by
  decide

/-- C2 (amended): when the Transport closes while requests are pending,
the close handler leaves the correlator state — every pending request —
completely unchanged; each pending request fails only later, when its
own 10-second timer fires, and then rejects with the
`Error("Command timeout: " ++ command)` rejection, not with a
`PeerDisconnectedError`. -/
theorem C2_close_leaves_pending_until_timeout (s : UnityIPCState) (i cmd : String)
    (h : mlookup i s.corr.handlers = some cmd) :
    (ipcOnClose s).corr = s.corr ∧
    corrStep (ipcOnClose s).corr (CorrEvent.timeoutFire i) =
      { s.corr with handlers := mapDelete i s.corr.handlers,
                    outcomes := s.corr.outcomes ++ [(i, ReqOutcome.timedOut cmd)] } := by
  refine ⟨rfl, ?_⟩
  show corrStep s.corr (CorrEvent.timeoutFire i) = _
  simp only [corrStep, h]

/-- Witness for the amended C2 at the concrete two-pending state. -/
theorem C2_witness :
    (ipcOnClose pendingTwoState).corr = pendingTwoState.corr ∧
    corrStep (ipcOnClose pendingTwoState).corr (CorrEvent.timeoutFire "a") =
      { pendingTwoState.corr with
          handlers := mapDelete "a" pendingTwoState.corr.handlers,
          outcomes := pendingTwoState.corr.outcomes ++
            [("a", ReqOutcome.timedOut "ping")] } :=
  C2_close_leaves_pending_until_timeout pendingTwoState "a" "ping" (by decide)

/-- Connection lifecycle status of a registry entry.  The declared
interface lists connected/disconnected/error; the manager also assigns
the string `project_only`, embedded here as a fourth constructor. -/
inductive ConnStatus where
  | connected
  | project_only
  | disconnected
  | error
deriving DecidableEq

/-- Embedding of the `UnityConnection` record stored per project by
`UnityConnectionManager` (mcp.ts interface plus the dynamically assigned
`isPlaying`/`isCompiling` fields); `lastHeartbeat` is an abstract
timestamp. -/
structure UnityConnection where
  projectPath : String
  unityVersion : String
  status : ConnStatus
  lastHeartbeat : Nat
  targetPlatform : String
  projectName : String
  editorPID : Option Nat := none
  isPlaying : Option Bool := none
  isCompiling : Option Bool := none
deriving DecidableEq

/-- The fields of `getProjectInfo` consumed by `connectToProject`. -/
structure ProjectInfo where
  unityVersion : String
  projectName : String
  targetPlatform : String
deriving DecidableEq

/-- Registry state of `UnityConnectionManager`: the `connections` map,
the key set of the `unityIPCConnections` map, the active target, plus an
instrumentation counter of `new UnityIPC(...)` constructions (each one
is a fresh Transport). -/
structure ManagerState where
  connections : List (String × UnityConnection)
  ipcTargets : List String
  activeConnection : Option String
  transportsCreated : Nat
deriving DecidableEq

/-- The `PlayModeState` union type of mcp.ts. -/
inductive PlayModeState where
  | Stopped
  | Playing
  | Paused
deriving DecidableEq

/-- Embedding of the `UnityStatus` interface of mcp.ts. -/
structure UnityStatus where
  connections : List UnityConnection
  activeProject : Option String
  isCompiling : Bool
  playModeState : PlayModeState
deriving DecidableEq

/-- Embedding of `UnityConnectionManager.getStatus`
(connection-manager.ts lines 301-324): `isCompiling` and
`playModeState` start at `false`/`Stopped` and are overwritten from the
active entry's cached flags when an active target is set and found;
`activeConn.isCompiling || false` and `if (activeConn.isPlaying)` are
JavaScript truthiness on the optional cached flags. -/
def getStatus (m : ManagerState) : UnityStatus :=
  let conns := m.connections.map Prod.snd
  match m.activeConnection with
  | none => ⟨conns, none, false, PlayModeState.Stopped⟩
  | some a =>
    match mlookup a m.connections with
    | none => ⟨conns, some a, false, PlayModeState.Stopped⟩
    | some c =>
      ⟨conns, some a, c.isCompiling.getD false,
        if c.isPlaying.getD false then PlayModeState.Playing else PlayModeState.Stopped⟩

/-- Key-set update of `unityIPCConnections.set`: add the key if it is
absent. -/
def insertKey (k : String) (l : List String) : List String :=
  if k ∈ l then l else l ++ [k]

/-- The fresh-connection path of `connectToProject` (connection-manager.ts
lines 158-201), taken when no already-connected entry exists: construct
a new `UnityIPC` (one new Transport), attempt its connect
(`isUnityRunning` is the result), detect the editor pid when running,
build the entry with status `connected` or `project_only`, cache the
peer state when `getUnityState` succeeds, store the entry, and set the
target as the active connection. -/
def connectFresh (m : ManagerState) (projectPath : String) (info : ProjectInfo)
    (isUnityRunning : Bool) (detectedPID : Option Nat)
    (unityState : Option (Bool × Bool)) (now : Nat) :
    ManagerState × UnityConnection :=
  let m1 := { m with transportsCreated := m.transportsCreated + 1 }
  let editorPID := if isUnityRunning then detectedPID else none
  let conn0 : UnityConnection :=
    { projectPath := projectPath, unityVersion := info.unityVersion,
      status := if isUnityRunning then ConnStatus.connected else ConnStatus.project_only,
      lastHeartbeat := now, targetPlatform := info.targetPlatform,
      projectName := info.projectName, editorPID := editorPID,
      isPlaying := none, isCompiling := none }
  let conn1 := if isUnityRunning then
      match unityState with
      | some st => { conn0 with isPlaying := some st.1, isCompiling := some st.2 }
      | none => conn0
    else conn0
  let m2 := if isUnityRunning then { m1 with ipcTargets := insertKey projectPath m1.ipcTargets }
    else m1
  ({ m2 with connections := mapSet projectPath conn1 m2.connections,
             activeConnection := some projectPath }, conn1)

/-- Embedding of `UnityConnectionManager.connectToProject`
(connection-manager.ts lines 142-206).  `projectInfo = none` embeds a
`getProjectInfo` throw (invalid project — the error propagates);
otherwise, an existing entry with status `connected` is returned as-is
(early return at lines 150-156, before any `UnityIPC` is constructed and
without touching `activeConnection`); every other case runs the fresh
path. -/
def connectToProject (m : ManagerState) (projectPath : String)
    (projectInfo : Option ProjectInfo) (isUnityRunning : Bool)
    (detectedPID : Option Nat) (unityState : Option (Bool × Bool)) (now : Nat) :
    Except String (ManagerState × UnityConnection) :=
  match projectInfo with
  | none => Except.error ("Invalid Unity project: " ++ projectPath)
  | some info =>
    match mlookup projectPath m.connections with
    | some existing =>
      if existing.status = ConnStatus.connected then Except.ok (m, existing)
      else Except.ok (connectFresh m projectPath info isUnityRunning detectedPID unityState now)
    | none =>
      Except.ok (connectFresh m projectPath info isUnityRunning detectedPID unityState now)

theorem connectFresh_sets_active (m : ManagerState) (pp : String) (info : ProjectInfo)
    (ir : Bool) (pid : Option Nat) (st : Option (Bool × Bool)) (now : Nat) :
    (connectFresh m pp info ir pid st now).1.activeConnection = some pp ∧
    (connectFresh m pp info ir pid st now).1.transportsCreated = m.transportsCreated + 1 := by
  unfold connectFresh
  cases ir <;> cases st <;> simp

/-- An already-connected entry for target "/proj/A". -/
def connA : UnityConnection :=
  { projectPath := "/proj/A", unityVersion := "2022.3.10f1",
    status := ConnStatus.connected, lastHeartbeat := 0,
    targetPlatform := "Standalone", projectName := "A" }

/-- The validated project info of "/proj/A". -/
def infoA : ProjectInfo := ⟨"2022.3.10f1", "A", "Standalone"⟩

/-- A registry holding a connected entry for "/proj/A" while the active
target is "/proj/B" (the user switched after connecting to both). -/
def mAB : ManagerState := ⟨[("/proj/A", connA)], ["/proj/A"], some "/proj/B", 1⟩

/-- An empty registry. -/
def mEmptyState : ManagerState := ⟨[], [], none, 0⟩

/-- Counterexample to C5 as stated: with "/proj/A" already Connected and
"/proj/B" active, `connectToProject("/proj/A")` returns the existing
entry through the early-return branch — but that branch never assigns
`activeConnection`, so the call returns with "/proj/B" still active,
refuting "every return from connect(target) leaves target registered as
the registry's active target". -/
theorem C5_counterexample_active_unchanged :
    connectToProject mAB "/proj/A" (some infoA) true none none 5 =
      Except.ok (mAB, connA) ∧
    mAB.activeConnection = some "/proj/B" ∧
    mAB.activeConnection ≠ some "/proj/A" :=
  ⟨rfl, rfl, by decide⟩

/-- C5 (amended): `connectToProject` is idempotent — when the registry
already holds an entry with status Connected for the target, the call
returns that entry unchanged together with the unchanged registry state
(in particular no new Transport is constructed and the previously active
target stays active); on every other successful return (no entry, or an
entry that is not Connected) exactly one new Transport is constructed
and the target is registered as the registry's active target. -/
theorem C5_connect_idempotent (m : ManagerState) (pp : String) (info : ProjectInfo)
    (ir : Bool) (pid : Option Nat) (st : Option (Bool × Bool)) (now : Nat)
    (ex : UnityConnection) :
    (mlookup pp m.connections = some ex → ex.status = ConnStatus.connected →
      connectToProject m pp (some info) ir pid st now = Except.ok (m, ex)) ∧
    ((∀ e, mlookup pp m.connections = some e → e.status ≠ ConnStatus.connected) →
      ∀ m2 c, connectToProject m pp (some info) ir pid st now = Except.ok (m2, c) →
        m2.activeConnection = some pp ∧
        m2.transportsCreated = m.transportsCreated + 1) := by
  constructor
  · intro hex hst
    simp only [connectToProject, hex, if_pos hst]
  · intro hall m2 c heq
    cases hlk : mlookup pp m.connections with
    | none =>
      simp only [connectToProject, hlk] at heq
      injection heq with hpair
      have h1 : (connectFresh m pp info ir pid st now).1 = m2 := by rw [hpair]
      rw [← h1]
      exact connectFresh_sets_active m pp info ir pid st now
    | some e =>
      have hne := hall e hlk
      simp only [connectToProject, hlk, if_neg hne] at heq
      injection heq with hpair
      have h1 : (connectFresh m pp info ir pid st now).1 = m2 := by rw [hpair]
      rw [← h1]
      exact connectFresh_sets_active m pp info ir pid st now

/-- Witness for the amended C5: the early-return branch at `mAB`, and
the fresh path on an empty registry which sets the target active and
creates one Transport. -/
theorem C5_witness :
    connectToProject mAB "/proj/A" (some infoA) true none none 5 =
      Except.ok (mAB, connA) ∧
    ((connectFresh mEmptyState "/proj/B" infoA false none none 7).1.activeConnection =
        some "/proj/B" ∧
      (connectFresh mEmptyState "/proj/B" infoA false none none 7).1.transportsCreated =
        mEmptyState.transportsCreated + 1) :=
  ⟨(C5_connect_idempotent mAB "/proj/A" infoA true none none 5 connA).1
      (by decide) (by decide),
    (C5_connect_idempotent mEmptyState "/proj/B" infoA false none none 7 connA).2
      (fun e he => Option.noConfusion he)
      (connectFresh mEmptyState "/proj/B" infoA false none none 7).1
      (connectFresh mEmptyState "/proj/B" infoA false none none 7).2
      rfl⟩

/-- Embedding of `UnityConnectionManager.isConnectionHealthy`
(connection-manager.ts lines 394-410): falsy `projectPath` or any status
other than `connected` is immediately unhealthy; otherwise the project
directory must still be accessible (`dirExists` embeds the `fs.access`
try/catch). -/
def isConnectionHealthy (dirExists : String → Bool) (c : UnityConnection) : Bool :=
  if c.projectPath = "" ∨ c.status ≠ ConnStatus.connected then false
  else dirExists c.projectPath

/-- One iteration of the `checkConnectionHealth` loop (lines 373-388):
an unhealthy entry is transitioned to `error` and a `connectionError`
notification is emitted for it (`true` in the second component); a
healthy entry gets its `lastHeartbeat` refreshed.  The per-entry
try/catch also lands in the error branch, so the iteration is total. -/
def sweepEntry (dirExists : String → Bool) (now : Nat) (c : UnityConnection) :
    UnityConnection × Bool :=
  if isConnectionHealthy dirExists c then ({ c with lastHeartbeat := now }, false)
  else ({ c with status := ConnStatus.error }, true)

/-- The `for (const [projectPath, connection] of this.connections)` loop
of `checkConnectionHealth`, returning the updated map and the targets
for which `connectionError` was emitted, in order. -/
def sweepLoop (dirExists : String → Bool) (now : Nat) :
    List (String × UnityConnection) → List (String × UnityConnection) × List String
  | [] => ([], [])
  | (p, c) :: rest =>
    let r := sweepEntry dirExists now c
    let rs := sweepLoop dirExists now rest
    ((p, r.1) :: rs.1, (if r.2 then [p] else []) ++ rs.2)

/-- Embedding of `UnityConnectionManager.checkConnectionHealth`: sweep
every entry, leaving the rest of the registry state alone. -/
def checkConnectionHealth (dirExists : String → Bool) (now : Nat) (m : ManagerState) :
    ManagerState × List String :=
  ({ m with connections := (sweepLoop dirExists now m.connections).1 },
    (sweepLoop dirExists now m.connections).2)

theorem sweepLoop_spec (dirExists : String → Bool) (now : Nat) :
    ∀ l : List (String × UnityConnection),
      sweepLoop dirExists now l =
        (l.map (fun pc => (pc.1, (sweepEntry dirExists now pc.2).1)),
          (l.filter (fun pc => (sweepEntry dirExists now pc.2).2)).map Prod.fst) := by
  intro l
  induction l with
  | nil => rfl
  | cons pc rest ih =>
    obtain ⟨p, c⟩ := pc
    by_cases h : (sweepEntry dirExists now c).2 = true
    · simp [sweepLoop, ih, List.filter_cons, h]
    · simp [sweepLoop, ih, List.filter_cons, h]

/-- An entry in `project_only` state whose backing project directory is
still perfectly reachable. -/
def connPO : UnityConnection :=
  { projectPath := "/proj/A", unityVersion := "2022.3.10f1",
    status := ConnStatus.project_only, lastHeartbeat := 3,
    targetPlatform := "Standalone", projectName := "A" }

/-- A registry holding only that entry. -/
def mPO : ManagerState := ⟨[("/proj/A", connPO)], [], none, 0⟩

/-- Counterexample to C6 as stated: with every directory reachable
(`fun _ => true`), the sweep still transitions the `project_only` entry
to `error` and emits a `connectionError` for it, instead of refreshing
its heartbeat and leaving the status unchanged — because
`isConnectionHealthy` declares every non-`connected` entry unhealthy
without consulting the backing resource. -/
theorem C6_counterexample_reachable_entry_errored :
    connPO.status = ConnStatus.project_only ∧
    (fun _ : String => true) connPO.projectPath = true ∧
    mlookup "/proj/A" (checkConnectionHealth (fun _ => true) 9 mPO).1.connections =
      some { connPO with status := ConnStatus.error } ∧
    (checkConnectionHealth (fun _ => true) 9 mPO).2 = ["/proj/A"] := by
  refine ⟨rfl, rfl, ?_, rfl⟩
  rfl

/-- C6 (amended): on every sweep tick the loop acts on each entry
independently — the new map is the pointwise image of `sweepEntry` and
the emitted `connectionError` notifications are exactly the unhealthy
entries' targets, so a failing check for one target never changes
another target's entry, and the sweep is a total function (it cannot
crash).  An entry is refreshed (heartbeat updated, status kept) exactly
when its status is `connected`, its path is non-empty and its directory
is reachable; every other entry — including a `project_only` entry whose
backing directory is still reachable — is transitioned to `error` with a
`connectionError` emission. -/
theorem C6_sweep_pointwise (dirExists : String → Bool) (now : Nat) (m : ManagerState)
    (c : UnityConnection) :
    (checkConnectionHealth dirExists now m).1.connections =
      m.connections.map (fun pc => (pc.1, (sweepEntry dirExists now pc.2).1)) ∧
    (checkConnectionHealth dirExists now m).2 =
      (m.connections.filter (fun pc => (sweepEntry dirExists now pc.2).2)).map Prod.fst ∧
    (c.status = ConnStatus.connected → c.projectPath ≠ "" →
      dirExists c.projectPath = true →
      sweepEntry dirExists now c = ({ c with lastHeartbeat := now }, false)) ∧
    (c.status ≠ ConnStatus.connected ∨ dirExists c.projectPath = false →
      sweepEntry dirExists now c = ({ c with status := ConnStatus.error }, true)) := by
  refine ⟨?_, ?_, ?_, ?_⟩
  · unfold checkConnectionHealth
    rw [sweepLoop_spec]
  · unfold checkConnectionHealth
    rw [sweepLoop_spec]
  · intro h1 h2 h3
    have hh : isConnectionHealthy dirExists c = true := by
      unfold isConnectionHealthy
      rw [if_neg]
      · exact h3
      · intro hor
        rcases hor with hp | hs
        · exact h2 hp
        · exact hs h1
    unfold sweepEntry
    rw [if_pos hh]
  · intro hor
    have hh : isConnectionHealthy dirExists c = false := by
      unfold isConnectionHealthy
      rcases hor with hs | hd
      · rw [if_pos (Or.inr hs)]
      · by_cases hfirst : c.projectPath = "" ∨ c.status ≠ ConnStatus.connected
        · rw [if_pos hfirst]
        · rw [if_neg hfirst]
          exact hd
    unfold sweepEntry
    rw [if_neg]
    intro habs
    rw [hh] at habs
    exact Bool.false_ne_true habs

/-- Directory-existence oracle for the C6 witness: only "/proj/A"
exists. -/
def dirA : String → Bool := fun p => p = "/proj/A"

/-- Witness for the amended C6 at the concrete one-entry registry and
the concrete connected entry `connA`. -/
theorem C6_witness :
    (checkConnectionHealth dirA 9 mPO).1.connections =
      mPO.connections.map (fun pc => (pc.1, (sweepEntry dirA 9 pc.2).1)) ∧
    (checkConnectionHealth dirA 9 mPO).2 =
      (mPO.connections.filter (fun pc => (sweepEntry dirA 9 pc.2).2)).map Prod.fst ∧
    (connA.status = ConnStatus.connected → connA.projectPath ≠ "" →
      dirA connA.projectPath = true →
      sweepEntry dirA 9 connA = ({ connA with lastHeartbeat := 9 }, false)) ∧
    (connA.status ≠ ConnStatus.connected ∨ dirA connA.projectPath = false →
      sweepEntry dirA 9 connA = ({ connA with status := ConnStatus.error }, true)) :=
  C6_sweep_pointwise dirA 9 mPO connA

/-- C10: `getStatus` never reports `Paused`: for every registry state
the result's `playModeState` is `Playing` exactly when an active target
is set, its entry exists, and that entry's cached `isPlaying` flag is
`true`; in every other case — including when no active target is set or
the cached flag is absent or `false` — it is `Stopped`, even though the
declared result type also admits `Paused` and the cached peer state
carries an `isPaused` fact the function never reads. -/
theorem C10_never_paused (m : ManagerState) :
    (getStatus m).playModeState ≠ PlayModeState.Paused ∧
    ((getStatus m).playModeState = PlayModeState.Playing ↔
      ∃ a c, m.activeConnection = some a ∧ mlookup a m.connections = some c ∧
        c.isPlaying = some true) ∧
    ((getStatus m).playModeState = PlayModeState.Playing ∨
      (getStatus m).playModeState = PlayModeState.Stopped) := by
  cases ha : m.activeConnection with
  | none => simp [getStatus, ha]
  | some a =>
    cases hc : mlookup a m.connections with
    | none => simp [getStatus, ha, hc]
    | some c =>
      cases hp : c.isPlaying with
      | none => simp [getStatus, ha, hc, hp]
      | some b =>
        cases b with
        | false => simp [getStatus, ha, hc, hp]
        | true => simp [getStatus, ha, hc, hp]
